import Mathlib

/-!
Shallow embedding of the moody Moodle client (src/src/moodle.rs).

Conventions of the embedding:
- Rust u64 ids become Nat; unix-second timestamps (chrono DateTime
  deserialized with ts_seconds) become Int (seconds since epoch), so the
  chrono signed_duration_since / num_seconds pipeline on whole-second
  timestamps is exact integer subtraction.
- Rust f32 grades become Rat: upload_grade only applies f32::max and
  f32::min to them, which are exact order operations, so the ordering
  facts proved here transfer to the float computation verbatim (for
  non-NaN inputs; f32::max and f32::min never produce NaN from a non-NaN
  operand).
- std::path::Path values are modeled as MPath: an absolute flag (the
  RootDir component) plus the list of normal components, which is exactly
  the information Path::components exposes on Unix (repeated separators
  collapse). PathBuf::deserialize of a JSON string is modeled by
  parsePath.
- Network transport and serde decoding of the outer response shapes are
  external; each operation is modeled as the pure function from the
  already-decoded response value to the produced result, and upload_grade
  as the function from its inputs to the request parameters it transmits.
- Rust Result<T, Error> becomes Except MError T.
-/

/-- Entity kinds of the NotFound error (enum NotFound in moodle.rs). -/
inductive NotFoundKind where
  | Assignment
  | Course
  | User
deriving DecidableEq, Repr

/-- Error taxonomy (enum Error in moodle.rs), restricted to the variants the
pure logic can produce; the spec calls the Login variant AuthenticationFailed. -/
inductive MError where
  | Login (msg : String)
  | NotFound (kind : NotFoundKind) (id : Nat)
deriving DecidableEq, Repr

/-- Model of a std::path::Path on Unix: whether it has a RootDir component,
and its list of normal components (repeated separators collapse). -/
structure MPath where
  absolute : Bool
  components : List String
deriving DecidableEq, Repr

/-- Whether a string starts with the path separator (str::starts_with on
the separator), on the character list of the string so that it evaluates
in the kernel. -/
def slashLeading (s : String) : Bool :=
  match s.data with
  | [] => false
  | c :: _ => c = '/'

/-- Parsing a string into path components, as Path::components does on Unix:
absolute iff it starts with the separator; empty chunks from repeated,
leading or trailing separators are dropped. -/
def parsePath (s : String) : MPath :=
  ⟨slashLeading s, ((s.data.splitOn '/').filter (fun c => c ≠ [])).map String.mk⟩

/-- str::trim: the string with leading and trailing whitespace characters
removed, on the character list of the string so that it evaluates in the
kernel. -/
def rustTrim (s : String) : String :=
  ⟨((s.data.dropWhile Char.isWhitespace).reverse.dropWhile
      Char.isWhitespace).reverse⟩

/-- Path::strip_prefix with argument the root path: succeeds exactly on an
absolute path, and removes the RootDir component. -/
def stripPrefixRoot (p : MPath) : Option MPath :=
  if p.absolute then some ⟨false, p.components⟩ else none

/-- The empty PathBuf, Path::new with an empty string. -/
def emptyPath : MPath := ⟨false, []⟩

/-- deserialize_filepath in moodle.rs:
strip_prefix of the root, with unwrap_or the empty path. -/
def deserialize_filepath (p : MPath) : MPath :=
  (stripPrefixRoot p).getD emptyPath

/-- Path::join on Unix: if the argument is absolute it replaces the
receiver, otherwise its components are appended. -/
def MPath.join (p q : MPath) : MPath :=
  if q.absolute then q else ⟨p.absolute, p.components ++ q.components⟩

/-- struct SubmissionFile: filename and fileurl as deserialized, filepath
as produced by deserialize_filepath. -/
structure SubmissionFile where
  filename : String
  fileurl : String
  filepath : MPath
deriving DecidableEq, Repr

/-- SubmissionFile::fullpath: self.filepath.join(self.filename). -/
def SubmissionFile.fullpath (f : SubmissionFile) : MPath :=
  f.filepath.join (parsePath f.filename)

/-- struct SubmissionFileArea: area name and optional files list. -/
structure SubmissionFileArea where
  area : String
  files : Option (List SubmissionFile)
deriving DecidableEq, Repr

/-- struct SubmissionPlugin: plugin type tag and optional fileareas list. -/
structure SubmissionPlugin where
  plugin_type : String
  fileareas : Option (List SubmissionFileArea)
deriving DecidableEq, Repr

/-- Inner loop of deserialize_files: walk the fileareas of one plugin and
return the files of the first area named submission_files (absent files
list defaulting to empty); none when no area matches. -/
def areaFiles : List SubmissionFileArea → Option (List SubmissionFile)
  | [] => none
  | fa :: rest =>
    if fa.area = "submission_files" then some (fa.files.getD [])
    else areaFiles rest

/-- deserialize_files in moodle.rs: scan the plugins in order; for each
plugin of type file, scan its fileareas (absent defaulting to empty) and
return the files of the first submission_files area; if no plugin yields
an area, return the empty list. The Rust function returns Ok in every one
of these cases (its only error path is the serde decode of the plugin list
itself, which is the input here), so it is modeled as a total function. -/
def deserialize_files : List SubmissionPlugin → List SubmissionFile
  | [] => []
  | p :: rest =>
    if p.plugin_type = "file" then
      match areaFiles (p.fileareas.getD []) with
      | some fs => fs
      | none => deserialize_files rest
    else deserialize_files rest

/-- struct MSubmission: user id, last-modified time (unix seconds), and the
files derived from the plugins field by deserialize_files. -/
structure MSubmission where
  userid : Nat
  timemodified : Int
  files : List SubmissionFile
deriving DecidableEq, Repr

/-- struct MAssignment: id, name, max grade (serde rename of the grade
field), due date as unix seconds. -/
structure MAssignment where
  id : Nat
  name : String
  max_grade : Rat
  duedate : Int
deriving DecidableEq, Repr

/-- MAssignment::calculate_late: the signed duration from duedate to
timemodified in whole seconds, floored at 0, cast to u64 (toNat). -/
def MAssignment.calculate_late (a : MAssignment) (s : MSubmission) : Nat :=
  (max (s.timemodified - a.duedate) 0).toNat

/-- struct MCourse: id, full name, embedded assignments. -/
structure MCourse where
  id : Nat
  fullname : String
  assignments : List MAssignment
deriving DecidableEq, Repr

/-- MCourse::get_assignment: first assignment with the requested id, else
NotFound(Assignment, id). Iterator::find is List.find?. -/
def MCourse.get_assignment (c : MCourse) (assignment_id : Nat) :
    Except MError MAssignment :=
  match c.assignments.find? (fun a => a.id == assignment_id) with
  | some a => .ok a
  | none => .error (.NotFound .Assignment assignment_id)

/-- struct AssignmentsResponse of mod_assign_get_assignments. -/
structure AssignmentsResponse where
  courses : List MCourse
deriving DecidableEq, Repr

/-- Moodle::get_course_assignments, from the decoded response: return the
first course whose id equals the requested one (the for loop with an early
return is List.find?), else NotFound(Course, id). -/
def get_course_assignments (resp : AssignmentsResponse) (course_id : Nat) :
    Except MError MCourse :=
  match resp.courses.find? (fun c => c.id == course_id) with
  | some c => .ok c
  | none => .error (.NotFound .Course course_id)

/-- struct AssignmentSubmission: one assignment-submission group of the
mod_assign_get_submissions response. -/
structure AssignmentSubmission where
  assignmentid : Nat
  submissions : List MSubmission
deriving DecidableEq, Repr

/-- struct SubmissionsResponse of mod_assign_get_submissions. -/
structure SubmissionsResponse where
  assignments : List AssignmentSubmission
deriving DecidableEq, Repr

/-- Moodle::get_submissions, from the decoded response: submissions of the
first group whose assignmentid equals the requested one, else
NotFound(Assignment, id). -/
def get_submissions (resp : SubmissionsResponse) (assignment_id : Nat) :
    Except MError (List MSubmission) :=
  match resp.assignments.find? (fun g => g.assignmentid == assignment_id) with
  | some g => .ok g.submissions
  | none => .error (.NotFound .Assignment assignment_id)

/-- struct MUser. -/
structure MUser where
  id : Nat
  fullname : String
  email : String
deriving DecidableEq, Repr

/-- Moodle::get_user, from the decoded UserResponse list: first user with
the requested id, else NotFound(User, id). -/
def get_user (resp : List MUser) (user_id : Nat) : Except MError MUser :=
  match resp.find? (fun u => u.id == user_id) with
  | some u => .ok u
  | none => .error (.NotFound .User user_id)

/-- struct LoginResponse: optional token, error message defaulting to the
empty string when absent. -/
structure LoginResponse where
  token : Option String
  error : String
deriving DecidableEq, Repr

/-- The fixed web-service path WS_PATH in moodle.rs. -/
def WS_PATH : String := "webservice/rest/server.php?moodlewsrestformat=json"

/-- struct Moodle: the session value, web-service url plus token. -/
structure Moodle where
  url : String
  token : String
deriving DecidableEq, Repr

/-- Moodle::new, from the decoded login response: a present token yields the
session bound to the web-service endpoint (Url::join modeled as appending
the fixed service path to a valid http base url ending in a slash) and that
token; an absent token yields Login with the server-supplied message. -/
def Moodle.new (base_url : String) (resp : LoginResponse) :
    Except MError Moodle :=
  match resp.token with
  | some t => .ok ⟨base_url ++ WS_PATH, t⟩
  | none => .error (.Login resp.error)

/-- The request parameters Moodle::upload_grade inserts into its form map
(the wstoken added by post, and the numeric-to-string rendering, elided). -/
structure UploadGradeParams where
  wsfunction : String
  assignmentid : Nat
  userid : Nat
  grade : Rat
  attemptnumber : Int
  addattempt : Nat
  workflowstate : String
  applytoall : Nat
  feedback_text : String
  feedback_format : Nat
deriving DecidableEq, Repr

/-- Moodle::upload_grade, modeled as the parameters it transmits: the grade
is grade.max(0).min(assignment.max_grade); the feedback text is
feedback.unwrap_or_default().trim(); the remaining fields are the fixed
constants of the source. The function has no error path of its own: every
input produces a request. -/
def upload_grade (a : MAssignment) (u : MUser) (grade : Rat)
    (feedback : Option String) : UploadGradeParams :=
  ⟨"mod_assign_save_grade", a.id, u.id,
    min (max grade 0) a.max_grade,
    -1, 0, "", 0,
    rustTrim (feedback.getD ""), 2⟩

/-- The stored filepath produced by deserialize_filepath never carries the
RootDir component, whatever the input path was. -/
theorem deserialize_filepath_absolute_false (p : MPath) :
    (deserialize_filepath p).absolute = false := by
  cases hp : p.absolute <;>
    simp [deserialize_filepath, stripPrefixRoot, hp, emptyPath]

/-- A path without the RootDir component is mapped to the empty path by
deserialize_filepath, since strip_prefix fails on it. -/
theorem deserialize_filepath_of_not_absolute (q : MPath)
    (h : q.absolute = false) : deserialize_filepath q = emptyPath := by
  simp [deserialize_filepath, stripPrefixRoot, h]

/-- Claim C3: for every assignment and submission the computed lateness
equals max(0, submitted_at - due_date) in whole seconds, and it is never
negative, including when the submission precedes the due date. -/
theorem calculate_late_spec (a : MAssignment) (s : MSubmission) :
    ((a.calculate_late s : Int) = max 0 (s.timemodified - a.duedate)) ∧
    0 ≤ (a.calculate_late s : Int) := by
  constructor
  · dsimp only [MAssignment.calculate_late]
    rw [Int.toNat_of_nonneg (le_max_right _ _), max_comm]
  · exact Int.natCast_nonneg _

/-- Claim C4 counterexample: a server path without a leading separator is
not kept as provided; the single-component relative path sub is replaced
by the empty path. -/
theorem deserialize_filepath_relative_counterexample :
    ¬ (deserialize_filepath ⟨false, ["sub"]⟩ = ⟨false, ["sub"]⟩) := by
  decide

/-- Claim C4 amended: the stored relative path equals the server path with
the leading separator stripped when the path has one, while a path without
a leading separator is replaced by the empty path (not kept as provided);
joining the stored path with a filename that has no leading separator
yields the full relative path of the attachment. -/
theorem deserialize_filepath_spec (p : MPath) (fname url : String)
    (hf : (parsePath fname).absolute = false) :
    (p.absolute = true → deserialize_filepath p = ⟨false, p.components⟩) ∧
    (p.absolute = false → deserialize_filepath p = emptyPath) ∧
    SubmissionFile.fullpath ⟨fname, url, deserialize_filepath p⟩ =
      ⟨false,
        (deserialize_filepath p).components ++ (parsePath fname).components⟩ := by
  refine ⟨fun hp => ?_, fun hp => ?_, ?_⟩
  · simp [deserialize_filepath, stripPrefixRoot, hp]
  · simp [deserialize_filepath, stripPrefixRoot, hp]
  · dsimp only [SubmissionFile.fullpath, MPath.join]
    rw [if_neg (by simp [hf]), deserialize_filepath_absolute_false]

/-- Claim C4 witness: on the absolute two-component path sub/dir the
leading separator is stripped and joining the filename a.pdf appends it. -/
theorem deserialize_filepath_spec_witness :
    deserialize_filepath ⟨true, ["sub", "dir"]⟩ = ⟨false, ["sub", "dir"]⟩ ∧
    SubmissionFile.fullpath
        ⟨"a.pdf", "u", deserialize_filepath ⟨true, ["sub", "dir"]⟩⟩ =
      ⟨false, ["sub", "dir", "a.pdf"]⟩ := by
  have h := deserialize_filepath_spec ⟨true, ["sub", "dir"]⟩ "a.pdf" "u"
    (by decide)
  refine ⟨h.1 rfl, ?_⟩
  rw [h.2.2]
  decide

/-- Claim C5 counterexample: the strip operation is not idempotent; on the
absolute path with single component a, one application yields the relative
path a and a second application yields the empty path. -/
theorem strip_idempotent_counterexample :
    ¬ (deserialize_filepath (deserialize_filepath ⟨true, ["a"]⟩) =
        deserialize_filepath ⟨true, ["a"]⟩) := by
  decide

/-- Claim C5 amended: applying the strip operation twice always yields the
empty path, so stripping twice equals stripping once exactly when a single
application already yields the empty path. -/
theorem strip_twice_yields_empty (p : MPath) :
    deserialize_filepath (deserialize_filepath p) = emptyPath ∧
    (deserialize_filepath (deserialize_filepath p) = deserialize_filepath p ↔
      deserialize_filepath p = emptyPath) := by
  have h2 : deserialize_filepath (deserialize_filepath p) = emptyPath :=
    deserialize_filepath_of_not_absolute _ (deserialize_filepath_absolute_false p)
  refine ⟨h2, ?_⟩
  rw [h2]
  exact eq_comm

/-- Claim C9 counterexample: with a server-supplied absolute filename the
full path is absolute, because Path::join replaces the receiver by an
absolute argument. -/
theorem fullpath_absolute_counterexample :
    (SubmissionFile.fullpath
        ⟨"/etc/passwd", "u", deserialize_filepath ⟨true, ["sub"]⟩⟩).absolute =
      true := by
  decide

/-- Claim C9 amended: the stored relative path is never absolute, and the
full path is relative whenever the filename does not begin with a path
separator; an absolute filename replaces the stored path wholesale and
makes the full path absolute. -/
theorem fullpath_relative (p : MPath) (fname url : String)
    (hf : (parsePath fname).absolute = false) :
    (deserialize_filepath p).absolute = false ∧
    (SubmissionFile.fullpath
        ⟨fname, url, deserialize_filepath p⟩).absolute = false := by
  refine ⟨deserialize_filepath_absolute_false p, ?_⟩
  dsimp only [SubmissionFile.fullpath, MPath.join]
  rw [if_neg (by simp [hf])]
  exact deserialize_filepath_absolute_false p

/-- Claim C9 witness: for the absolute server path sub and the plain
filename a.pdf, both the stored path and the full path are relative. -/
theorem fullpath_relative_witness :
    (deserialize_filepath ⟨true, ["sub"]⟩).absolute = false ∧
    (SubmissionFile.fullpath
        ⟨"a.pdf", "u", deserialize_filepath ⟨true, ["sub"]⟩⟩).absolute =
      false :=
  fullpath_relative ⟨true, ["sub"]⟩ "a.pdf" "u" (by decide)

/-- Claim C2: for every grade the transmitted value lies in the interval
from 0 to the assignment max grade (the data-model invariant makes the max
grade nonnegative), it equals the input grade whenever that is already in
range, and the operation never rejects an out-of-range grade: upload_grade
is total, producing a request for every input. -/
theorem upload_grade_clamps (a : MAssignment) (u : MUser) (g : Rat)
    (fb : Option String) (hmax : 0 ≤ a.max_grade) :
    (0 ≤ (upload_grade a u g fb).grade ∧
      (upload_grade a u g fb).grade ≤ a.max_grade) ∧
    (0 ≤ g → g ≤ a.max_grade → (upload_grade a u g fb).grade = g) := by
  dsimp only [upload_grade]
  refine ⟨⟨le_min (le_max_right g 0) hmax, min_le_right _ _⟩, ?_⟩
  intro h0 hle
  rw [max_eq_left h0, min_eq_left hle]

/-- Claim C2 witness: for the assignment with max grade 100, the in-range
grade 42 is transmitted unchanged. -/
theorem upload_grade_clamps_witness :
    0 ≤ (⟨3, "A", 100, 0⟩ : MAssignment).max_grade ∧
    (upload_grade ⟨3, "A", 100, 0⟩ ⟨7, "u", "e"⟩ 42 none).grade = 42 :=
  ⟨by norm_num,
    (upload_grade_clamps ⟨3, "A", 100, 0⟩ ⟨7, "u", "e"⟩ 42 none
      (by norm_num)).2 (by norm_num) (by norm_num)⟩

/-- Claim C6: authentication succeeds exactly when the login response holds
a token, yielding the session bound to the web-service endpoint and that
token; an absent token fails with the Login error (AuthenticationFailed in
the spec) carrying the server-supplied message verbatim. -/
theorem moodle_new_token_spec (base_url : String) (resp : LoginResponse) :
    (∀ t, resp.token = some t →
      Moodle.new base_url resp = .ok ⟨base_url ++ WS_PATH, t⟩) ∧
    (resp.token = none →
      Moodle.new base_url resp = .error (.Login resp.error)) := by
  constructor
  · intro t ht
    simp [Moodle.new, ht]
  · intro ht
    simp [Moodle.new, ht]

/-- Claim C6 witness: the login response with no token and message invalid
login fails with exactly that message, and a response with token abc
yields a session holding that token. -/
theorem moodle_new_token_spec_witness :
    Moodle.new "https://moodle.example/" ⟨none, "invalid login"⟩ =
      .error (.Login "invalid login") ∧
    Moodle.new "https://moodle.example/" ⟨some "abc", ""⟩ =
      .ok ⟨"https://moodle.example/" ++ WS_PATH, "abc"⟩ :=
  ⟨(moodle_new_token_spec "https://moodle.example/"
      ⟨none, "invalid login"⟩).2 rfl,
    (moodle_new_token_spec "https://moodle.example/" ⟨some "abc", ""⟩).1
      "abc" rfl⟩

/-- Claim C8: every upload_grade request carries attemptnumber -1,
addattempt 0, applytoall 0 and an empty workflowstate; the feedback text
is the trimmed input text, and an absent feedback is sent as the empty
string. -/
theorem upload_grade_fixed_params (a : MAssignment) (u : MUser) (g : Rat)
    (fb : Option String) :
    (upload_grade a u g fb).attemptnumber = -1 ∧
    (upload_grade a u g fb).addattempt = 0 ∧
    (upload_grade a u g fb).applytoall = 0 ∧
    (upload_grade a u g fb).workflowstate = "" ∧
    (∀ s, fb = some s →
      (upload_grade a u g fb).feedback_text = rustTrim s) ∧
    (fb = none → (upload_grade a u g fb).feedback_text = "") := by
  refine ⟨rfl, rfl, rfl, rfl, fun s hs => ?_, fun hn => ?_⟩
  · rw [hs]
    rfl
  · rw [hn]
    rfl

/-- Claim C8 witness: feedback with surrounding whitespace is trimmed,
absent feedback becomes the empty string, and attemptnumber is -1. -/
theorem upload_grade_fixed_params_witness :
    (upload_grade ⟨3, "A", 100, 0⟩ ⟨7, "u", "e"⟩ 5
        (some "  hi ")).feedback_text = "hi" ∧
    (upload_grade ⟨3, "A", 100, 0⟩ ⟨7, "u", "e"⟩ 5 none).feedback_text =
      "" ∧
    (upload_grade ⟨3, "A", 100, 0⟩ ⟨7, "u", "e"⟩ 5 none).attemptnumber =
      -1 := by
  refine ⟨?_, ?_, ?_⟩
  · rw [(upload_grade_fixed_params ⟨3, "A", 100, 0⟩ ⟨7, "u", "e"⟩ 5
      (some "  hi ")).2.2.2.2.1 "  hi " rfl]
    decide
  · exact (upload_grade_fixed_params ⟨3, "A", 100, 0⟩ ⟨7, "u", "e"⟩ 5
      none).2.2.2.2.2 rfl
  · exact (upload_grade_fixed_params ⟨3, "A", 100, 0⟩ ⟨7, "u", "e"⟩ 5
      none).1

/-- Claim C1: every by-id lookup validates the result against the requested
id: a returned entity carries exactly the requested id, and when no entry
of the collection matches the requested id the operation fails with the
NotFound error for the entity kind and that id, never returning an empty,
default or positionally-chosen value. -/
theorem lookups_validate_requested_id :
    (∀ (resp : AssignmentsResponse) (cid : Nat),
      (∀ r, get_course_assignments resp cid = .ok r → r.id = cid) ∧
      ((∀ c ∈ resp.courses, c.id ≠ cid) →
        get_course_assignments resp cid = .error (.NotFound .Course cid))) ∧
    (∀ (resp : SubmissionsResponse) (aid : Nat),
      (∀ subs, get_submissions resp aid = .ok subs →
        ∃ g ∈ resp.assignments, g.assignmentid = aid ∧
          g.submissions = subs) ∧
      ((∀ g ∈ resp.assignments, g.assignmentid ≠ aid) →
        get_submissions resp aid = .error (.NotFound .Assignment aid))) ∧
    (∀ (users : List MUser) (uid : Nat),
      (∀ r, get_user users uid = .ok r → r.id = uid) ∧
      ((∀ u ∈ users, u.id ≠ uid) →
        get_user users uid = .error (.NotFound .User uid))) ∧
    (∀ (c : MCourse) (aid : Nat),
      (∀ r, c.get_assignment aid = .ok r → r.id = aid) ∧
      ((∀ a ∈ c.assignments, a.id ≠ aid) →
        c.get_assignment aid = .error (.NotFound .Assignment aid))) := by
  refine ⟨fun resp cid => ⟨?_, ?_⟩, fun resp aid => ⟨?_, ?_⟩,
    fun users uid => ⟨?_, ?_⟩, fun c aid => ⟨?_, ?_⟩⟩
  · intro r hr
    dsimp only [get_course_assignments] at hr
    cases hfind : resp.courses.find? (fun c => c.id == cid) with
    | none => rw [hfind] at hr; cases hr
    | some c0 =>
      rw [hfind] at hr
      injection hr with h
      subst h
      simpa using List.find?_some hfind
  · intro hall
    dsimp only [get_course_assignments]
    rw [List.find?_eq_none.mpr (fun x hx => by simpa using hall x hx)]
  · intro subs hs
    dsimp only [get_submissions] at hs
    cases hfind : resp.assignments.find? (fun g => g.assignmentid == aid) with
    | none => rw [hfind] at hs; cases hs
    | some g0 =>
      rw [hfind] at hs
      injection hs with h
      exact ⟨g0, List.mem_of_find?_eq_some hfind,
        by simpa using List.find?_some hfind, h⟩
  · intro hall
    dsimp only [get_submissions]
    rw [List.find?_eq_none.mpr (fun x hx => by simpa using hall x hx)]
  · intro r hr
    dsimp only [get_user] at hr
    cases hfind : users.find? (fun u => u.id == uid) with
    | none => rw [hfind] at hr; cases hr
    | some u0 =>
      rw [hfind] at hr
      injection hr with h
      subst h
      simpa using List.find?_some hfind
  · intro hall
    dsimp only [get_user]
    rw [List.find?_eq_none.mpr (fun x hx => by simpa using hall x hx)]
  · intro r hr
    dsimp only [MCourse.get_assignment] at hr
    cases hfind : c.assignments.find? (fun a => a.id == aid) with
    | none => rw [hfind] at hr; cases hr
    | some a0 =>
      rw [hfind] at hr
      injection hr with h
      subst h
      simpa using List.find?_some hfind
  · intro hall
    dsimp only [MCourse.get_assignment]
    rw [List.find?_eq_none.mpr (fun x hx => by simpa using hall x hx)]

/-- Claim C1 witness: requesting submissions for assignment id 5 when the
server returns groups for ids 4 and 6 yields NotFound(Assignment, 5), not
an empty list. -/
theorem lookups_validate_requested_id_witness :
    get_submissions ⟨[⟨4, []⟩, ⟨6, []⟩]⟩ 5 =
      .error (.NotFound .Assignment 5) :=
  (lookups_validate_requested_id.2.1 ⟨[⟨4, []⟩, ⟨6, []⟩]⟩ 5).2 (by decide)

/-- The inner file-area scan returns the files (absent defaulting to
empty) of the first area named submission_files when the list decomposes
around a unique such area. -/
theorem areaFiles_append_first (m1 m2 : List SubmissionFileArea)
    (fa : SubmissionFileArea)
    (hm1 : ∀ b ∈ m1, b.area ≠ "submission_files")
    (ha : fa.area = "submission_files") :
    areaFiles (m1 ++ fa :: m2) = some (fa.files.getD []) := by
  induction m1 with
  | nil => simp [areaFiles, ha]
  | cons b m ih =>
    have hb : b.area ≠ "submission_files" := hm1 b (by simp)
    rw [List.cons_append, areaFiles, if_neg hb]
    exact ih (fun x hx => hm1 x (by simp [hx]))

/-- Plugins whose type is not file are skipped by deserialize_files. -/
theorem deserialize_files_skip_not_file (l rest : List SubmissionPlugin)
    (h : ∀ q ∈ l, q.plugin_type ≠ "file") :
    deserialize_files (l ++ rest) = deserialize_files rest := by
  induction l with
  | nil => rfl
  | cons q l2 ih =>
    have hq : q.plugin_type ≠ "file" := h q (by simp)
    rw [List.cons_append, deserialize_files, if_neg hq]
    exact ih (fun x hx => h x (by simp [hx]))

/-- Claim C7: when the plugin list holds exactly one plugin of type file
and its fileareas hold exactly one area named submission_files, the
derived files are exactly the files of that area; entries under any other
area or plugin type are discarded. -/
theorem deserialize_files_extracts
    (l1 l2 : List SubmissionPlugin) (p : SubmissionPlugin)
    (m1 m2 : List SubmissionFileArea) (fa : SubmissionFileArea)
    (fs : List SubmissionFile)
    (h1 : ∀ q ∈ l1, q.plugin_type ≠ "file")
    (h2 : ∀ q ∈ l2, q.plugin_type ≠ "file")
    (hp : p.plugin_type = "file")
    (hfa : p.fileareas = some (m1 ++ fa :: m2))
    (hm1 : ∀ b ∈ m1, b.area ≠ "submission_files")
    (hm2 : ∀ b ∈ m2, b.area ≠ "submission_files")
    (ha : fa.area = "submission_files")
    (hfs : fa.files = some fs) :
    deserialize_files (l1 ++ p :: l2) = fs := by
  rw [deserialize_files_skip_not_file l1 (p :: l2) h1, deserialize_files,
    if_pos hp, hfa]
  rw [show (some (m1 ++ fa :: m2)).getD [] = m1 ++ fa :: m2 from rfl,
    areaFiles_append_first m1 m2 fa hm1 ha, hfs]
  rfl

/-- Claim C7 witness: a response with a comments plugin and a file plugin
whose areas are other and submission_files yields exactly the files of the
submission_files area. -/
theorem deserialize_files_extracts_witness :
    deserialize_files
      [⟨"comments", none⟩,
        ⟨"file",
          some [⟨"other", some [⟨"b.txt", "u2", ⟨false, []⟩⟩]⟩,
            ⟨"submission_files",
              some [⟨"a.pdf", "u1", ⟨false, ["sub"]⟩⟩]⟩]⟩] =
      [⟨"a.pdf", "u1", ⟨false, ["sub"]⟩⟩] :=
  deserialize_files_extracts [⟨"comments", none⟩] []
    ⟨"file",
      some [⟨"other", some [⟨"b.txt", "u2", ⟨false, []⟩⟩]⟩,
        ⟨"submission_files", some [⟨"a.pdf", "u1", ⟨false, ["sub"]⟩⟩]⟩]⟩
    [⟨"other", some [⟨"b.txt", "u2", ⟨false, []⟩⟩]⟩] []
    ⟨"submission_files", some [⟨"a.pdf", "u1", ⟨false, ["sub"]⟩⟩]⟩
    [⟨"a.pdf", "u1", ⟨false, ["sub"]⟩⟩]
    (by decide) (by decide) rfl rfl (by decide) (by decide) rfl rfl

/-- The inner file-area scan yields nothing or an empty list when every
area named submission_files has an absent files field. -/
theorem areaFiles_none_or_nil (areas : List SubmissionFileArea)
    (h : ∀ fa ∈ areas, fa.area = "submission_files" → fa.files = none) :
    areaFiles areas = none ∨ areaFiles areas = some [] := by
  induction areas with
  | nil => exact Or.inl rfl
  | cons fa rest ih =>
    by_cases hfa : fa.area = "submission_files"
    · right
      rw [areaFiles, if_pos hfa, h fa (by simp) hfa]
      rfl
    · rw [areaFiles, if_neg hfa]
      exact ih (fun x hx hx2 => h x (by simp [hx]) hx2)

/-- Claim C10: a plugin list with no plugin of type file, or whose file
plugins have an absent fileareas field, no area named submission_files, or
an absent files field in such an area, yields the empty files list; the
conversion succeeds on all these shapes, it is not a decode error. -/
theorem deserialize_files_empty_cases (plugins : List SubmissionPlugin)
    (h : ∀ p ∈ plugins, p.plugin_type = "file" →
      ∀ fa ∈ p.fileareas.getD [], fa.area = "submission_files" →
        fa.files = none) :
    deserialize_files plugins = [] := by
  induction plugins with
  | nil => rfl
  | cons p rest ih =>
    have hrest : deserialize_files rest = [] :=
      ih (fun x hx => h x (by simp [hx]))
    by_cases hp : p.plugin_type = "file"
    · rcases areaFiles_none_or_nil (p.fileareas.getD [])
          (h p (by simp) hp) with hc | hc
      · rw [deserialize_files, if_pos hp, hc]
        exact hrest
      · rw [deserialize_files, if_pos hp, hc]
    · rw [deserialize_files, if_neg hp]
      exact hrest

/-- Claim C10 witness: a comments plugin, a file plugin with absent
fileareas, and a file plugin whose areas are a foreign area with a file
and a submission_files area with absent files, together yield the empty
list. -/
theorem deserialize_files_empty_cases_witness :
    deserialize_files
      [⟨"comments", none⟩, ⟨"file", none⟩,
        ⟨"file",
          some [⟨"other", some [⟨"b.txt", "u2", ⟨false, []⟩⟩]⟩,
            ⟨"submission_files", none⟩]⟩] = [] :=
  deserialize_files_empty_cases
    [⟨"comments", none⟩, ⟨"file", none⟩,
      ⟨"file",
        some [⟨"other", some [⟨"b.txt", "u2", ⟨false, []⟩⟩]⟩,
          ⟨"submission_files", none⟩]⟩]
    (by decide)
